import Mathlib

/-!
Verification of the map-engine tile-server specification against a shallow
embedding of the Rust sources (crates `map-engine` and `map-engine-server`).

Modelling conventions:

* Rust `f64` values are embedded as exact rationals (`ℚ`).  Every concrete
  input appearing in a theorem below is far from a rounding boundary
  (floor/ceil arguments differ from the nearest integer by much more than the
  accumulated double-rounding error), so the rational results coincide with
  the `f64` results of the binary.
* `isize`/`i32` become `ℤ`, `usize`/`u32` become `ℕ`.  Rust integer division
  on signed values truncates toward zero (`Int.tdiv`), and `as usize` /
  `as u8` casts are modelled exactly where they matter.
* Fallible Rust functions returning `Result` become `Except String`;
  Rust panics (`unwrap` on `None`, failed asserts, out-of-range indexing)
  are modelled by `Option` with `none` for the panic.
-/

namespace MapEngine

/-- `f64::EPSILON` (the literal `2.220446049250313e-16` used by the source) as
an exact rational. -/
def f64EPSILON : ℚ := 2220446049250313 / 10 ^ 31

/-- Truncation toward zero of a rational, the semantics of Rust `f64::trunc`
and of `as i64`-style casts applied to a finite value. -/
def ratTrunc (q : ℚ) : ℤ := if q < 0 then ⌈q⌉ else ⌊q⌋

/-! ## Windows (`map-engine/src/windows.rs`)

A data window representing a section of a raster image. -/

/-- `Window` from `windows.rs`: column/row offset of the upper-left corner
(signed) and width/height in pixels (unsigned). -/
structure Window where
  col_off : ℤ
  row_off : ℤ
  width : ℕ
  height : ℕ
deriving DecidableEq, Repr

namespace Window

/-- `Window::new`. -/
def new (col_off row_off : ℤ) (width height : ℕ) : Window :=
  ⟨col_off, row_off, width, height⟩

/-- `Window::default()` (the derived `Default`): all fields zero. -/
def zeroWindow : Window := ⟨0, 0, 0, 0⟩

/-- `Window::is_zero`: the window covers 0 pixels. -/
def is_zero (w : Window) : Bool := w.height == 0 || w.width == 0

end Window

/-- `intersection2` from `windows.rs`: intersection of two windows, used as
the inner block of the reduce part of `intersection`.  The `as usize` casts
are exact here because the guards ensure `v0 < v1` and `h0 < h1`. -/
def intersection2 (w0 w1 : Window) : Window :=
  if w0.is_zero || w1.is_zero then Window.zeroWindow
  else
    let v0 := max w0.col_off w1.col_off
    let v1 := min (w0.col_off + (w0.width : ℤ)) (w1.col_off + (w1.width : ℤ))
    if v0 ≥ v1 then Window.zeroWindow
    else
      let h0 := max w0.row_off w1.row_off
      let h1 := min (w0.row_off + (w0.height : ℤ)) (w1.row_off + (w1.height : ℤ))
      if h0 ≥ h1 then Window.zeroWindow
      else ⟨v0, h0, (v1 - v0).toNat, (h1 - h0).toNat⟩

/-- `intersection` from `windows.rs`: fold the list with `intersection2`
(`Iterator::reduce`: `none` on an empty list, otherwise fold from the first
element), then map the all-zero window to `none`. -/
def intersection (windows : List Window) : Option Window :=
  match windows with
  | [] => none
  | w :: rest =>
    let r := rest.foldl intersection2 w
    if r = Window.zeroWindow then none else some r

/-- `impl Mul<f64> for Window` from `windows.rs`.  Note that the source
computes `row_shift` from `extended_width` (not `extended_height`): the
documented row-shift quirk.  For a positive factor both extended sizes are
non-negative, so the `as usize` casts are `Int.toNat`. -/
def Window.mulScalar (w : Window) (rhs : ℚ) : Window :=
  let extended_width : ℤ := ⌈(w.width : ℚ) * rhs⌉
  let extended_height : ℤ := ⌈(w.height : ℚ) * rhs⌉
  let col_shift : ℤ := (extended_width - (w.width : ℤ)).tdiv 2
  let row_shift : ℤ := (extended_width - (w.width : ℤ)).tdiv 2
  Window.new (w.col_off - col_shift) (w.row_off - row_shift)
    extended_width.toNat extended_height.toNat

/-! ## Tiles (`map-engine/src/tiles.rs`) -/

/-- `MAXZOOMLEVEL` from `lib.rs`. -/
def MAXZOOMLEVEL : ℕ := 32

/-- `SUPPORTED_FORMATS` from `lib.rs`. -/
def SUPPORTED_FORMATS : List String := ["png"]

/-- `TILE_SIZE` from `tiles.rs`. -/
def TILE_SIZE : ℕ := 256

/-- `Tile` from `tiles.rs`: column `x`, row `y`, zoom `z` and the private
image-extension field. -/
structure Tile where
  x : ℕ
  y : ℕ
  z : ℕ
  ext : Option String
deriving DecidableEq, Repr

namespace Tile

/-- `Tile::new`: the extension starts out as `"png"`. -/
def new (x y z : ℕ) : Tile := ⟨x, y, z, some "png"⟩

/-- `Tile::set_extension`: only members of `SUPPORTED_FORMATS` are accepted. -/
def set_extension (t : Tile) (e : String) : Except String Tile :=
  if SUPPORTED_FORMATS.contains e then .ok { t with ext := some e }
  else .error ("The extension " ++ e ++ " is not yet supported")

/-- One step of the `while` loop of `Tile::zoom_out`: halve the indices
(rounding odd indices down, as the even/odd branches of the source do) and
decrement the zoom. -/
def zoomOutStep (t : Tile) : Tile :=
  Tile.new (if t.x % 2 == 0 then t.x / 2 else (t.x - 1) / 2)
    (if t.y % 2 == 0 then t.y / 2 else (t.y - 1) / 2) (t.z - 1)

/-- The `while return_tile.z > target_zoom` loop of `Tile::zoom_out`.  Each
iteration lowers `z` by exactly one, so the loop body runs `z - target` times
(zero times when `target ≥ z`). -/
def zoomOutIter : ℕ → Tile → Tile
  | 0, t => t
  | n + 1, t => zoomOutIter n (zoomOutStep t)

/-- `Tile::zoom_out`. -/
def zoom_out (t : Tile) (zoom : Option ℕ) : Option Tile :=
  if t.z = 0 then none
  else
    let target := zoom.getD (t.z - 1)
    some (zoomOutIter (t.z - target) (Tile.new t.x t.y t.z))

/-- The four children a tile is mapped to by one iteration of the loop in
`Tile::zoom_in`, in source order. -/
def zoomInChildren (t : Tile) : List Tile :=
  [Tile.new (t.x * 2) (t.y * 2) (t.z + 1),
   Tile.new (t.x * 2 + 1) (t.y * 2) (t.z + 1),
   Tile.new (t.x * 2 + 1) (t.y * 2 + 1) (t.z + 1),
   Tile.new (t.x * 2) (t.y * 2 + 1) (t.z + 1)]

/-- The `while tiles[0].z < target_zoom` loop of `Tile::zoom_in`.  Every tile
in the worked list shares the same zoom and each iteration raises it by one,
so the loop body runs `target - z` times (zero times when `target ≤ z`). -/
def zoomInIter : ℕ → List Tile → List Tile
  | 0, tiles => tiles
  | n + 1, tiles => zoomInIter n (tiles.flatMap zoomInChildren)

/-- `Tile::zoom_in`. -/
def zoom_in (t : Tile) (zoom : Option ℕ) : Option (List Tile) :=
  if t.z = MAXZOOMLEVEL then none
  else
    let target := zoom.getD (t.z + 1)
    some (zoomInIter (target - t.z) [Tile.new t.x t.y t.z])

end Tile

/-! ## Affine transforms (`map-engine/src/affine.rs`) -/

/-- `GeoTransform` from `affine.rs`: the six coefficients, stored in the
internal order `[a, b, c, d, e, f]` of the source (named here as
`to_tuple` names them). -/
structure GeoTransform where
  a : ℚ
  b : ℚ
  c : ℚ
  d : ℚ
  e : ℚ
  f : ℚ
deriving DecidableEq, Repr

namespace GeoTransform

/-- `GeoTransform::new(&[g0..g5])`: store the array as-is. -/
def new (g0 g1 g2 g3 g4 g5 : ℚ) : GeoTransform := ⟨g0, g1, g2, g3, g4, g5⟩

/-- `GeoTransform::from_gdal(&[c, a, b, f, d, e])`: reorder a GDAL-style
array into the internal order. -/
def from_gdal (g0 g1 g2 g3 g4 g5 : ℚ) : GeoTransform := ⟨g1, g2, g0, g4, g5, g3⟩

/-- `GeoTransform::determinant`. -/
def determinant (g : GeoTransform) : ℚ := g.a * g.e - g.b * g.d

/-- `GeoTransform::inv`: errors when the determinant is zero. -/
def inv (g : GeoTransform) : Except String GeoTransform :=
  if g.determinant = 0 then .error "Determinant is zero"
  else
    let idet := 1 / g.determinant
    let ra := g.e * idet
    let rb := -g.b * idet
    let rd := -g.d * idet
    let re := g.a * idet
    .ok ⟨ra, rb, -g.c * ra - g.f * rb, rd, re, -g.c * rd - g.f * re⟩

/-- `impl Mul<(T, T)> for &GeoTransform`: apply the affine map to a point. -/
def mulPoint (g : GeoTransform) (vx vy : ℚ) : ℚ × ℚ :=
  (vx * g.a + vy * g.b + g.c, vx * g.d + vy * g.e + g.f)

/-- `GeoTransform::rowcol`: invert, nudge the coordinates by
`f64EPSILON`, apply the inverse and floor, returning `(row, col)`. -/
def rowcol (g : GeoTransform) (x y : ℚ) : Except String (ℤ × ℤ) :=
  match g.inv with
  | .error e => .error e
  | .ok gi =>
    let p := gi.mulPoint (x + f64EPSILON) (y + f64EPSILON)
    .ok (⌊p.2⌋, ⌊p.1⌋)

end GeoTransform

/-! ## Colours (`map-engine/src/colour.rs`) -/

/-- `Colour` from `colour.rs`: either RGBA components (each nominally in
`[0, 1]`) or a hex string. -/
inductive Colour where
  | Seq (r g b a : ℚ)
  | Hex (s : String)
deriving DecidableEq, Repr

/-- `From<Colour> for RgbaComponents`: a `Seq` yields its components, a `Hex`
panics (modelled by `none`). -/
def Colour.toComponents : Colour → Option (ℚ × ℚ × ℚ × ℚ)
  | .Seq r g b a => some (r, g, b, a)
  | .Hex _ => none

/-- `ColourVisitor::visit_seq` from `colour.rs` restricted to a numeric
quadruple `[r, g, b, a]` (the length/type errors of the `SeqAccess` layer are
not modelled; the claims concern complete numeric quadruples).  All four in
`[0, 1]`: keep; otherwise all four in `[0, 255]`: divide by 255; otherwise an
invalid-value error. -/
def visit_seq (r g b a : ℚ) : Except String Colour :=
  if 0 ≤ r ∧ r ≤ 1 ∧ 0 ≤ g ∧ g ≤ 1 ∧ 0 ≤ b ∧ b ≤ 1 ∧ 0 ≤ a ∧ a ≤ 1 then
    .ok (.Seq r g b a)
  else if 0 ≤ r ∧ r ≤ 255 ∧ 0 ≤ g ∧ g ≤ 255 ∧ 0 ≤ b ∧ b ≤ 255 ∧ 0 ≤ a ∧ a ≤ 255 then
    .ok (.Seq (r / 255) (g / 255) (b / 255) (a / 255))
  else
    .error "invalid value"

/-! ## Composites (`map-engine/src/cmap.rs`)

Only the two colour definitions the claims exercise are embedded; the
gradient variants delegate to the external `palette` crate (`Gradient::get`)
and are outside the sources under verification. -/

/-- The Rust `as u8` cast applied to a finite `f64`: truncate toward zero and
saturate into `0..=255`. -/
def u8cast (q : ℚ) : ℕ := (min 255 (max 0 (ratTrunc q))).toNat

/-- The Rust `as isize` cast applied to a finite, already-truncated `f64`
value: saturate into the 64-bit signed range. -/
def isizeCast (n : ℤ) : ℤ := min (2 ^ 63 - 1) (max (-(2 ^ 63)) n)

/-- Clamping into `[0, 1]`, the spec's description of the RGB normalisation. -/
def clamp01 (q : ℚ) : ℚ := max 0 (min 1 q)

/-- `ColourDefinition` from `cmap.rs` (gradient variants omitted, see above). -/
inductive ColourDefinition where
  | Discrete (entries : List (ℤ × Colour))
  | RGB (vmin vmax : ℚ × ℚ × ℚ)
deriving DecidableEq, Repr

/-- `Composite` from `cmap.rs` (the `gradient`, `display` and `len` fields,
which the embedded handlers never read, are omitted). -/
structure Composite where
  vmin : Option (List ℚ)
  vmax : Option (List ℚ)
  hashmap : Option (List (ℤ × (ℚ × ℚ × ℚ × ℚ)))
  colour_definition : ColourDefinition
deriving DecidableEq, Repr

/-- `HashMap::get` on a map collected from an association list: for duplicate
keys the later entry wins. -/
def hashGet {α : Type} (hm : List (ℤ × α)) (k : ℤ) : Option α :=
  (hm.reverse.find? (fun p => p.1 == k)).map Prod.snd

namespace Composite

/-- `Composite::new_rgb`.  The source takes two `Vec<f64>` and panics unless
both have length 3, so the model takes the three components directly. -/
def new_rgb (vmin vmax : ℚ × ℚ × ℚ) : Composite :=
  { vmin := some [vmin.1, vmin.2.1, vmin.2.2],
    vmax := some [vmax.1, vmax.2.1, vmax.2.2],
    hashmap := none,
    colour_definition := .RGB vmin vmax }

/-- `Composite::new_discrete_palette`: convert each colour of the palette to
RGBA components (a `Hex` colour panics, hence the `Option`).  The unused
`vmin`/`vmax` come from `Composite::default()`. -/
def new_discrete_palette (entries : List (ℤ × Colour)) : Option Composite :=
  match entries.mapM (fun p => p.2.toComponents.map (fun comps => (p.1, comps))) with
  | none => none
  | some hm =>
    some { vmin := some [0], vmax := some [1], hashmap := some hm,
           colour_definition := .Discrete entries }

end Composite

/-- `rgb_handle` from `cmap.rs`.  The source builds `norm` by mapping over
`values` while indexing `vmin`/`vmax` (panicking when they are shorter), then
reads `norm[0..=2]`, sets alpha to 1 (or 0 on a full no-data match, asserting
that exactly 3 no-data values were given) and converts with `* 255.0` and
`as u8`. -/
def rgb_handle (comp : Composite) (values : List ℚ) (no_data_values : Option (List ℚ)) :
    Option (List ℕ) := do
  let vminL ← comp.vmin
  let vmaxL ← comp.vmax
  if values.length ≤ vminL.length ∧ values.length ≤ vmaxL.length then
    let norm := (List.range values.length).map (fun i =>
      let v := values.getD i 0
      let vmn := vminL.getD i 0
      let vmx := vmaxL.getD i 0
      if v > vmx then 1 else if v < vmn then 0 else (v - vmn) / (vmx - vmn))
    let r ← norm.get? 0
    let g ← norm.get? 1
    let b ← norm.get? 2
    let a : ℚ := 1
    let a8 ← match no_data_values with
      | some ndv =>
        if ndv.length = 3 then
          if (ndv.zip values).all (fun p => |p.2 - p.1| < f64EPSILON) then some 0
          else some (u8cast (a * 255))
        else none
      | none => some (u8cast (a * 255))
    pure [u8cast (r * 255), u8cast (g * 255), u8cast (b * 255), a8]
  else none

/-- `hashmap_handle` from `cmap.rs`: truncate `values[0]`, cast to `isize`,
look it up in the palette map, defaulting to transparent black. -/
def hashmap_handle (comp : Composite) (values : List ℚ) : Option (List ℕ) := do
  let val ← values.get? 0
  let hash ← comp.hashmap
  let comps := (hashGet hash (isizeCast (ratTrunc val))).getD (0, 0, 0, 0)
  pure [u8cast (comps.1 * 255), u8cast (comps.2.1 * 255),
        u8cast (comps.2.2.1 * 255), u8cast (comps.2.2.2 * 255)]

/-- `HandleGet::get for Composite`: dispatch on the colour definition. -/
def Composite.get (comp : Composite) (values : List ℚ)
    (no_data_values : Option (List ℚ)) : Option (List ℕ) :=
  match comp.colour_definition with
  | .Discrete _ => hashmap_handle comp values
  | .RGB _ _ => rgb_handle comp values no_data_values

/-! ## Spatial reference resolution (`map-engine/src/raster/mod.rs`) -/

/-- `SpatialInfo` from `raster/mod.rs`. -/
structure SpatialInfo where
  epsg_code : Option ℤ
  proj4 : Option String
  wkt : Option String
  esri : Option String
deriving DecidableEq, Repr

/-- The GDAL `SpatialRef::from_*` constructor that
`SpatialInfo::to_spatial_ref` ends up invoking (the constructors themselves
live in the external `gdal` crate and are kept abstract). -/
inductive SpatialRefCall where
  | fromEpsg (code : ℕ)
  | fromProj4 (s : String)
  | fromWkt (s : String)
  | fromEsri (s : String)
deriving DecidableEq, Repr

/-- Outcome of `SpatialInfo::to_spatial_ref`: a constructor call, the `Msg`
error, or a panic (`unwrap` on `None`). -/
inductive SpatialRefOutcome where
  | ok (call : SpatialRefCall)
  | msgErr (m : String)
  | panic
deriving DecidableEq, Repr

/-- The Rust `as u32` cast on an `i32`: two's-complement wrap. -/
def u32cast (n : ℤ) : ℕ := (n % 2 ^ 32).toNat

/-- `SpatialInfo::to_spatial_ref` from `raster/mod.rs`.  Note that the source
of the `esri` branch reads `self.wkt.clone().unwrap()` — not `self.esri` —
and that branch is only reached when `wkt` is `None`, so it panics. -/
def SpatialInfo.to_spatial_ref (si : SpatialInfo) : SpatialRefOutcome :=
  match si.epsg_code with
  | some code => .ok (.fromEpsg (u32cast code))
  | none =>
    match si.proj4 with
    | some p => .ok (.fromProj4 p)
    | none =>
      match si.wkt with
      | some w => .ok (.fromWkt w)
      | none =>
        match si.esri with
        | some _ =>
          match si.wkt with
          | some w => .ok (.fromEsri w)
          | none => .panic
        | none => .msgErr "Unknow spatial ref"

/-! ## The tile endpoint (`server/src/endpoints/get_tile.rs` and
`map-engine/src/png.rs`)

The PNG byte encoder (`png::Encoder`, an external crate) is kept abstract as
a parameter `enc` mapping a band-major `(4, TILE_SIZE, TILE_SIZE)` byte array
to its byte stream; the raster/state lookups, which go through GDAL, are
abstracted by their outcomes. -/

/-- `Array::zeros((4, TILE_SIZE, TILE_SIZE))` from `empty_png` in `png.rs`:
the all-zero, fully transparent tile array, indexed `(band, row, col)`. -/
def zeroTileArray : ℕ → ℕ → ℕ → ℕ := fun _ _ _ => 0

/-- `empty_png` from `png.rs`: PNG-encode the all-zero array.  `enc` is the
abstract PNG encoder. -/
def empty_png (enc : (ℕ → ℕ → ℕ → ℕ) → List ℕ) : List ℕ := enc zeroTileArray

/-- Body of an HTTP response: raw bytes or an error text. -/
inductive TileBody where
  | bytes (content : List ℕ)
  | text (message : String)
deriving DecidableEq, Repr

/-- `get_tile` from `endpoints/get_tile.rs`, given the outcomes of the
state/raster interactions: build the tile, set its extension (501 on an
unsupported one), look the map up (404 when absent), ask the raster whether
the tile intersects (`?` propagates an error), and serve either the empty-png
sentinel or the rendered tile with status 200. -/
def get_tile (enc : (ℕ → ℕ → ℕ → ℕ) → List ℕ)
    (mapLookup : Except String Unit) (intersectsTile : Except String Bool)
    (renderedBody : List ℕ) (x y z : ℕ) (e : String) :
    Except String (ℕ × TileBody) :=
  match (Tile.new x y z).set_extension e with
  | .error err => .ok (501, .text err)
  | .ok _tile =>
    match mapLookup with
    | .error err => .ok (404, .text err)
    | .ok _ =>
      match intersectsTile with
      | .error err => .error err
      | .ok b =>
        if !b then .ok (200, .bytes (empty_png enc))
        else .ok (200, .bytes renderedBody)

/-! ## Helper lemmas -/

/-- `intersection2` is symmetric in its two arguments. -/
theorem intersection2_comm (a b : Window) : intersection2 a b = intersection2 b a := by
  simp only [intersection2, Bool.or_comm]
  rw [max_comm a.col_off b.col_off,
    min_comm (a.col_off + (a.width : ℤ)) (b.col_off + (b.width : ℤ)),
    max_comm a.row_off b.row_off,
    min_comm (a.row_off + (a.height : ℤ)) (b.row_off + (b.height : ℤ))]

/-- A window covering at least one pixel is its own pairwise intersection. -/
theorem intersection2_self (a : Window) (h : a.is_zero = false) :
    intersection2 a a = a := by
  obtain ⟨c, r, wd, ht⟩ := a
  simp only [Window.is_zero, Bool.or_eq_false_iff, beq_eq_false_iff_ne, ne_eq] at h
  have h1 : (ht == 0) = false := by simp [h.1]
  have h2 : (wd == 0) = false := by simp [h.2]
  have hwd : ¬((c : ℤ) ≥ c + (wd : ℤ)) := by omega
  have hht : ¬((r : ℤ) ≥ r + (ht : ℤ)) := by omega
  simp only [intersection2, Window.is_zero, max_self, min_self, h1, h2, Bool.or_self,
    Bool.false_or, Bool.false_eq_true, if_false, if_neg hwd, if_neg hht, Window.mk.injEq]
  refine ⟨trivial, trivial, ?_, ?_⟩ <;> omega

/-! ## Theorems for the claims -/

/-- C9: the top-level `intersection` of a one-element list `[w]` never applies
the pairwise reduction, so it returns `some w` for every `w` other than the
all-zero default window — including windows covering zero pixels — and `none`
exactly for the all-zero window. -/
theorem intersection_singleton (w : Window) :
    intersection [w] = if w = Window.zeroWindow then none else some w := rfl

/-- C4 (amended): pairwise window intersection is symmetric for all windows;
intersection of a window with itself returns the window whenever it covers at
least one pixel (for a zero-pixel window the pairwise step returns the
all-zero default, which the top level maps to `none`). -/
theorem intersection_comm_and_self :
    (∀ a b : Window, intersection [a, b] = intersection [b, a]) ∧
    (∀ a : Window, a.is_zero = false → intersection [a, a] = some a) := by
  constructor
  · intro a b
    simp only [intersection, List.foldl, intersection2_comm a b]
  · intro a h
    have hne : a ≠ Window.zeroWindow := by
      intro hEq
      rw [hEq] at h
      simp [Window.is_zero, Window.zeroWindow] at h
    simp only [intersection, List.foldl, intersection2_self a h, if_neg hne]

/-- C4 counterexample: for the zero-pixel window `Window::new(1, 1, 0, 0)`
the intersection with itself is `None`, not the window itself. -/
theorem intersection_self_zero_window :
    intersection [Window.new 1 1 0 0, Window.new 1 1 0 0] ≠
      some (Window.new 1 1 0 0) := by decide

/-- C4 witness: a concrete non-zero window is its own intersection. -/
theorem intersection_comm_and_self_witness :
    intersection [Window.new 2 3 10 10, Window.new 2 3 10 10] =
      some (Window.new 2 3 10 10) :=
  intersection_comm_and_self.2 (Window.new 2 3 10 10) (by decide)

/-- C8: evaluation of `SpatialInfo::to_spatial_ref` at a `SpatialInfo` whose
only populated field is `esri`: the source unwraps `self.wkt` (which is
`None` on that branch) instead of `self.esri`, so it panics rather than
resolving from the ESRI string as documented. -/
theorem to_spatial_ref_esri_only_panics :
    (SpatialInfo.mk none none none (some "ESRI-style WKT")).to_spatial_ref =
      .panic := rfl

/-- C1: for a tile request with extension `png` against a registered map
whose raster does not intersect the tile, `get_tile` answers status 200 with
a body byte-for-byte equal to the empty-tile sentinel, which is by definition
the PNG encoding of the all-zero fully transparent tile array. -/
theorem get_tile_nonintersecting (enc : (ℕ → ℕ → ℕ → ℕ) → List ℕ)
    (renderedBody : List ℕ) (x y z : ℕ) :
    get_tile enc (.ok ()) (.ok false) renderedBody x y z "png" =
      .ok (200, .bytes (empty_png enc)) ∧
    empty_png enc = enc zeroTileArray := ⟨rfl, rfl⟩

/-- C2 counterexample: with the transform built by `GeoTransform::from_gdal`
from the spec's array, `rowcol(-37.858599333933114, -8.753184128460619)` does
not return `Ok((0, 0))` (it returns `Ok((-9743, 42145))`). -/
theorem rowcol_from_gdal_not_origin :
    (GeoTransform.from_gdal (-75.7180969831) 0.000898315284 0 (-17.50457163) 0
        (-0.000898315284)).rowcol (-37.858599333933114) (-8.753184128460619) ≠
      .ok (0, 0) := by
  norm_num [GeoTransform.rowcol, GeoTransform.inv, GeoTransform.determinant,
    GeoTransform.from_gdal, GeoTransform.mulPoint, f64EPSILON]

/-- C2 (amended): with the transform built by `GeoTransform::new` from the
spec's array — as the repository's own test does — `rowcol` returns
`Ok((0, 0))` at `(-37.858599333933114, -8.753184128460619)` and
`Ok((23917, 1))` at `(-78, -23)`. -/
theorem rowcol_new_expected_values :
    (GeoTransform.new (-75.7180969831) 0.000898315284 0 (-17.50457163) 0
        (-0.000898315284)).rowcol (-37.858599333933114) (-8.753184128460619) =
      .ok (0, 0) ∧
    (GeoTransform.new (-75.7180969831) 0.000898315284 0 (-17.50457163) 0
        (-0.000898315284)).rowcol (-78) (-23) = .ok (23917, 1) := by
  constructor <;>
    norm_num [GeoTransform.rowcol, GeoTransform.inv, GeoTransform.determinant,
      GeoTransform.new, GeoTransform.mulPoint, f64EPSILON]

/-- Zooming one level out of any of the four children of `Tile::new(x, y, z)`
recovers `Tile::new(x, y, z)`. -/
theorem zoomOutStep_of_child (x y z : ℕ) (c : Tile)
    (hc : c ∈ Tile.zoomInChildren (Tile.new x y z)) :
    Tile.zoomOutStep c = Tile.new x y z := by
  have he : (x * 2) % 2 = 0 := by omega
  have ho : (x * 2 + 1) % 2 = 1 := by omega
  have hye : (y * 2) % 2 = 0 := by omega
  have hyo : (y * 2 + 1) % 2 = 1 := by omega
  have hde : x * 2 / 2 = x := by omega
  have hdo : (x * 2 + 1 - 1) / 2 = x := by omega
  have hyde : y * 2 / 2 = y := by omega
  have hydo : (y * 2 + 1 - 1) / 2 = y := by omega
  simp only [Tile.zoomInChildren, Tile.new, List.mem_cons, List.not_mem_nil, or_false] at hc
  rcases hc with h | h | h | h <;> subst h <;>
    simp [Tile.zoomOutStep, Tile.new, he, ho, hye, hyo, hde, hdo, hyde, hydo]

/-- C5: every tile `T` below the maximum zoom level (32) yields
`Some` children from `T.zoom_in(None)`, and each child `c` satisfies
`c.zoom_out(None) = Some(T)`.  (Every tile the crate can construct carries
the extension `"png"`, the only member of `SUPPORTED_FORMATS`.) -/
theorem zoom_in_zoom_out_inverse (t : Tile) (hext : t.ext = some "png")
    (hz : t.z < MAXZOOMLEVEL) :
    ∃ children, t.zoom_in none = some children ∧
      ∀ c ∈ children, c.zoom_out none = some t := by
  obtain ⟨x, y, z, e⟩ := t
  simp only at hext
  subst hext
  have hzne : z ≠ MAXZOOMLEVEL := Nat.ne_of_lt hz
  have hone : z + 1 - z = 1 := by omega
  refine ⟨Tile.zoomInChildren (Tile.new x y z), ?_, ?_⟩
  · simp only [Tile.zoom_in, hzne, if_false, Option.getD, hone, Tile.zoomInIter,
      List.flatMap_cons, List.flatMap_nil, List.append_nil, Tile.new]
  · intro c hc
    have hstep := zoomOutStep_of_child x y z c hc
    have hcz : c.z = z + 1 := by
      simp only [Tile.zoomInChildren, Tile.new, List.mem_cons, List.not_mem_nil,
        or_false] at hc
      rcases hc with h | h | h | h <;> subst h <;> rfl
    have hczne : c.z ≠ 0 := by omega
    have hone' : c.z - (c.z - 1) = 1 := by omega
    have hcnew : Tile.new c.x c.y c.z = c := by
      simp only [Tile.zoomInChildren, Tile.new, List.mem_cons, List.not_mem_nil,
        or_false] at hc
      rcases hc with h | h | h | h <;> subst h <;> rfl
    simp only [Tile.zoom_out, hczne, if_false, Option.getD, hone', Tile.zoomOutIter,
      hcnew, hstep]
    rfl

/-- C5 witness: the round trip at the concrete tile `Tile::new(1, 2, 3)`. -/
theorem zoom_in_zoom_out_inverse_witness :
    ∃ children, (Tile.new 1 2 3).zoom_in none = some children ∧
      ∀ c ∈ children, c.zoom_out none = some (Tile.new 1 2 3) :=
  zoom_in_zoom_out_inverse (Tile.new 1 2 3) rfl (by decide)

/-- C3: scaling a window by a positive scalar `k` gives width
`ceil(k * width)` and height `ceil(k * height)`, shifts the column offset
left by `(ceil(k * width) - width) / 2` (truncating division) and shifts the
row offset by the same width-based delta (the row-shift quirk of the source);
in particular `Window::new(0, 0, 100, 100) * 1.02 = Window::new(-1, -1, 102,
102)`. -/
theorem window_scale (w : Window) (k : ℚ) (hk : 0 < k) :
    (((w.mulScalar k).width : ℤ) = ⌈k * (w.width : ℚ)⌉ ∧
     ((w.mulScalar k).height : ℤ) = ⌈k * (w.height : ℚ)⌉ ∧
     (w.mulScalar k).col_off =
       w.col_off - (⌈k * (w.width : ℚ)⌉ - (w.width : ℤ)).tdiv 2 ∧
     (w.mulScalar k).row_off =
       w.row_off - (⌈k * (w.width : ℚ)⌉ - (w.width : ℤ)).tdiv 2) ∧
    (Window.new 0 0 100 100).mulScalar 1.02 = Window.new (-1) (-1) 102 102 := by
  constructor
  · have hcw : (0 : ℤ) ≤ ⌈k * (w.width : ℚ)⌉ :=
      Int.ceil_nonneg (mul_nonneg (le_of_lt hk) (by positivity))
    have hch : (0 : ℤ) ≤ ⌈k * (w.height : ℚ)⌉ :=
      Int.ceil_nonneg (mul_nonneg (le_of_lt hk) (by positivity))
    have hw : ((w.width : ℚ)) * k = k * (w.width : ℚ) := mul_comm _ _
    have hh : ((w.height : ℚ)) * k = k * (w.height : ℚ) := mul_comm _ _
    refine ⟨?_, ?_, ?_, ?_⟩ <;>
      simp [Window.mulScalar, Window.new, hw, hh, Int.toNat_of_nonneg hcw,
        Int.toNat_of_nonneg hch]
  · have h100 : ⌈(100 : ℚ) * 1.02⌉ = 102 := by norm_num
    simp [Window.mulScalar, Window.new, h100]

/-- C3 witness: the conjunct instantiated at `Window::new(0, 0, 100, 100)`
and factor `1.02`. -/
theorem window_scale_witness :
    (((Window.new 0 0 100 100).mulScalar 1.02).width : ℤ) =
      ⌈(1.02 : ℚ) * (((Window.new 0 0 100 100).width : ℕ) : ℚ)⌉ :=
  (window_scale (Window.new 0 0 100 100) 1.02 (by norm_num)).1.1

/-- The normalisation branch of `rgb_handle`, already multiplied by 255,
agrees with clamping the linear map into `[0, 1]` and multiplying by 255,
whenever `vmin < vmax`. -/
theorem norm_eq_clamp {vmn vmx v : ℚ} (h : vmn < vmx) :
    (if vmx < v then (255 : ℚ) else if v < vmn then 0 else (v - vmn) / (vmx - vmn) * 255) =
      clamp01 ((v - vmn) / (vmx - vmn)) * 255 := by
  have hpos : (0 : ℚ) < vmx - vmn := by linarith
  unfold clamp01
  by_cases h1 : vmx < v
  · have hge : 1 ≤ (v - vmn) / (vmx - vmn) := by
      rw [le_div_iff₀ hpos]; linarith
    rw [if_pos h1, min_eq_left hge, max_eq_right zero_le_one, one_mul]
  · by_cases h2 : v < vmn
    · have hle : (v - vmn) / (vmx - vmn) ≤ 0 :=
        div_nonpos_iff.mpr (Or.inr ⟨by linarith, le_of_lt hpos⟩)
      rw [if_neg h1, if_pos h2, min_eq_right (le_trans hle zero_le_one),
        max_eq_left hle, zero_mul]
    · push_neg at h1 h2
      have hge0 : 0 ≤ (v - vmn) / (vmx - vmn) :=
        div_nonneg (by linarith) (le_of_lt hpos)
      have hle1 : (v - vmn) / (vmx - vmn) ≤ 1 := by
        rw [div_le_one hpos]; linarith
      rw [if_neg (not_lt.mpr h1), if_neg (not_lt.mpr h2), min_eq_right hle1,
        max_eq_right hge0]

/-- C6 (amended): for an RGB composite whose per-band ranges satisfy
`vmin_i < vmax_i`, `get` maps each band value `v_i` to
`(v_i - vmin_i) / (vmax_i - vmin_i)` clamped to `[0, 1]`, multiplies by 255
truncating toward zero, and sets alpha to 255 when no no-data values are
given. -/
theorem rgb_get (m1 m2 m3 M1 M2 M3 v1 v2 v3 : ℚ)
    (h1 : m1 < M1) (h2 : m2 < M2) (h3 : m3 < M3) :
    ((Composite.new_rgb (m1, m2, m3) (M1, M2, M3)).get [v1, v2, v3] none =
      some [u8cast (clamp01 ((v1 - m1) / (M1 - m1)) * 255),
            u8cast (clamp01 ((v2 - m2) / (M2 - m2)) * 255),
            u8cast (clamp01 ((v3 - m3) / (M3 - m3)) * 255), 255]) ∧
    (∀ n1 n2 n3 : ℚ,
      ¬(|v1 - n1| < f64EPSILON ∧ |v2 - n2| < f64EPSILON ∧ |v3 - n3| < f64EPSILON) →
      (Composite.new_rgb (m1, m2, m3) (M1, M2, M3)).get [v1, v2, v3]
          (some [n1, n2, n3]) =
        some [u8cast (clamp01 ((v1 - m1) / (M1 - m1)) * 255),
              u8cast (clamp01 ((v2 - m2) / (M2 - m2)) * 255),
              u8cast (clamp01 ((v3 - m3) / (M3 - m3)) * 255), 255]) := by
  have e1 := norm_eq_clamp (v := v1) h1
  have e2 := norm_eq_clamp (v := v2) h2
  have e3 := norm_eq_clamp (v := v3) h3
  have ha : u8cast (255 : ℚ) = 255 := by
    norm_num [u8cast, ratTrunc]
    all_goals decide
  constructor
  · simp only [Composite.get, Composite.new_rgb, rgb_handle, Option.bind_eq_bind,
      Option.some_bind, List.length_cons, List.length_nil, List.range_succ,
      List.range_zero, List.map, List.getD, List.get?, List.getD_cons_zero,
      List.getD_cons_succ, List.nil_append, List.cons_append, List.map_cons,
      List.map_nil]
    norm_num
    rw [e1, e2, e3]
    simp [ha]
  · intro n1 n2 n3 hnd
    have hall : (([n1, n2, n3].zip [v1, v2, v3]).all
        (fun p => |p.2 - p.1| < f64EPSILON)) = false := by
      apply Bool.eq_false_iff.mpr
      intro htrue
      rw [show ([n1, n2, n3].zip [v1, v2, v3]) =
        [(n1, v1), (n2, v2), (n3, v3)] from rfl] at htrue
      simp only [List.all_cons, List.all_nil, Bool.and_true, Bool.and_eq_true,
        decide_eq_true_eq] at htrue
      exact hnd ⟨htrue.1, htrue.2.1, htrue.2.2⟩
    simp only [Composite.get, Composite.new_rgb, rgb_handle, Option.bind_eq_bind,
      Option.some_bind, List.length_cons, List.length_nil, List.range_succ,
      List.range_zero, List.map, List.getD, List.get?, List.getD_cons_zero,
      List.getD_cons_succ, List.nil_append, List.cons_append, List.map_cons,
      List.map_nil, hall]
    norm_num
    rw [e1, e2, e3]
    simp [ha]

/-- C6 counterexample: for the RGB composite with reversed range
`vmin = [100; 3]`, `vmax = [0; 3]` at values `[50, 50, 50]`, `get` does not
equal the claimed clamped linear map (the code answers `[255, 255, 255,
255]`, the formula gives `[127, 127, 127, 255]`). -/
theorem rgb_get_reversed_range :
    (Composite.new_rgb (100, 100, 100) (0, 0, 0)).get [50, 50, 50] none ≠
      some [u8cast (clamp01 ((50 - 100) / (0 - 100)) * 255),
            u8cast (clamp01 ((50 - 100) / (0 - 100)) * 255),
            u8cast (clamp01 ((50 - 100) / (0 - 100)) * 255), 255] := by
  norm_num [Composite.get, Composite.new_rgb, rgb_handle, u8cast, ratTrunc,
    clamp01, min_def, max_def]
  decide

/-- C6 witness: `Composite::new_rgb([0; 3], [100; 3]).get([-10, 50, 150],
None)` yields `[0, 127, 255, 255]`. -/
theorem rgb_get_witness :
    (Composite.new_rgb (0, 0, 0) (100, 100, 100)).get [-10, 50, 150] none =
      some [0, 127, 255, 255] := by
  have h := (rgb_get 0 0 0 100 100 100 (-10) 50 150 (by norm_num) (by norm_num)
    (by norm_num)).1
  rw [h]
  norm_num [clamp01, u8cast, ratTrunc, min_def, max_def]
  decide

/-- C7: for a discrete-palette composite, `get(&[v], None)` looks up
`trunc(v)` cast to `isize` in the palette map: a hit yields the colour with
each component multiplied by 255 and truncated, a miss yields transparent
black `[0, 0, 0, 0]`. -/
theorem discrete_get (entries : List (ℤ × Colour)) (comp : Composite) (v : ℚ)
    (hcomp : Composite.new_discrete_palette entries = some comp) :
    comp.get [v] none =
      some (match hashGet (comp.hashmap.getD []) (isizeCast (ratTrunc v)) with
        | some comps => [u8cast (comps.1 * 255), u8cast (comps.2.1 * 255),
            u8cast (comps.2.2.1 * 255), u8cast (comps.2.2.2 * 255)]
        | none => [0, 0, 0, 0]) := by
  have hzero : u8cast ((0 : ℚ) * 255) = 0 := by
    norm_num [u8cast, ratTrunc]
  have hzero0 : u8cast (0 : ℚ) = 0 := by
    norm_num [u8cast, ratTrunc]
  unfold Composite.new_discrete_palette at hcomp
  rcases hmm : entries.mapM (fun p => p.2.toComponents.map (fun comps => (p.1, comps))) with
    _ | hm
  · rw [hmm] at hcomp
    exact absurd hcomp (by simp)
  · rw [hmm] at hcomp
    simp only [Option.some.injEq] at hcomp
    subst hcomp
    simp only [Composite.get, hashmap_handle, Option.bind_eq_bind, Option.some_bind,
      List.get?, Option.getD_some]
    rcases hget : hashGet hm (isizeCast (ratTrunc v)) with _ | comps
    · simp [hget, hzero, hzero0]
    · simp [hget]

/-- C7 witness: `Composite::new_discrete_palette([(0, red), (1, green),
(2, blue)]).get(&[3.0], None)` yields `[0, 0, 0, 0]` because `3` is not a key
of the palette. -/
theorem discrete_get_witness :
    ({ vmin := some [0], vmax := some [1],
       hashmap := some [(0, (1, 0, 0, 1)), (1, (0, 1, 0, 1)), (2, (0, 0, 1, 1))],
       colour_definition := .Discrete
         [(0, Colour.Seq 1 0 0 1), (1, Colour.Seq 0 1 0 1),
          (2, Colour.Seq 0 0 1 1)] } : Composite).get [3] none =
      some [0, 0, 0, 0] := by
  have h := discrete_get
    [(0, Colour.Seq 1 0 0 1), (1, Colour.Seq 0 1 0 1), (2, Colour.Seq 0 0 1 1)]
    { vmin := some [0], vmax := some [1],
      hashmap := some [(0, (1, 0, 0, 1)), (1, (0, 1, 0, 1)), (2, (0, 0, 1, 1))],
      colour_definition := .Discrete
        [(0, Colour.Seq 1 0 0 1), (1, Colour.Seq 0 1 0 1),
         (2, Colour.Seq 0 0 1 1)] } 3 rfl
  rw [h]
  have htr : ratTrunc 3 = 3 := by norm_num [ratTrunc]
  have hsz : isizeCast 3 = 3 := by norm_num [isizeCast]
  rw [htr, hsz]
  decide

/-- C10: deserialising a numeric colour quadruple keeps components that all
lie in `[0, 1]` unchanged, divides by 255 exactly when some component
exceeds 1 and all lie in `[0, 255]`, rejects any quadruple with a negative
component or one above 255, and in particular maps `[1, 1, 1, 1]` to opaque
white. -/
theorem visit_seq_ranges (r g b a : ℚ) :
    ((0 ≤ r ∧ r ≤ 1 ∧ 0 ≤ g ∧ g ≤ 1 ∧ 0 ≤ b ∧ b ≤ 1 ∧ 0 ≤ a ∧ a ≤ 1) →
      visit_seq r g b a = .ok (.Seq r g b a)) ∧
    ((1 < r ∨ 1 < g ∨ 1 < b ∨ 1 < a) →
      (0 ≤ r ∧ r ≤ 255 ∧ 0 ≤ g ∧ g ≤ 255 ∧ 0 ≤ b ∧ b ≤ 255 ∧ 0 ≤ a ∧ a ≤ 255) →
      visit_seq r g b a = .ok (.Seq (r / 255) (g / 255) (b / 255) (a / 255))) ∧
    ((r < 0 ∨ g < 0 ∨ b < 0 ∨ a < 0 ∨ 255 < r ∨ 255 < g ∨ 255 < b ∨ 255 < a) →
      visit_seq r g b a = .error "invalid value") ∧
    visit_seq 1 1 1 1 = .ok (.Seq 1 1 1 1) := by
  refine ⟨?_, ?_, ?_, ?_⟩
  · intro h
    rw [visit_seq, if_pos h]
  · intro hgt h
    have hno1 : ¬(0 ≤ r ∧ r ≤ 1 ∧ 0 ≤ g ∧ g ≤ 1 ∧ 0 ≤ b ∧ b ≤ 1 ∧ 0 ≤ a ∧ a ≤ 1) := by
      rintro ⟨_, hr1, _, hg1, _, hb1, _, ha1⟩
      rcases hgt with hx | hx | hx | hx <;> linarith
    rw [visit_seq, if_neg hno1, if_pos h]
  · intro hbad
    have hno1 : ¬(0 ≤ r ∧ r ≤ 1 ∧ 0 ≤ g ∧ g ≤ 1 ∧ 0 ≤ b ∧ b ≤ 1 ∧ 0 ≤ a ∧ a ≤ 1) := by
      rintro ⟨hr0, hr1, hg0, hg1, hb0, hb1, ha0, ha1⟩
      rcases hbad with hx | hx | hx | hx | hx | hx | hx | hx <;> linarith
    have hno2 : ¬(0 ≤ r ∧ r ≤ 255 ∧ 0 ≤ g ∧ g ≤ 255 ∧ 0 ≤ b ∧ b ≤ 255 ∧
        0 ≤ a ∧ a ≤ 255) := by
      rintro ⟨hr0, hr1, hg0, hg1, hb0, hb1, ha0, ha1⟩
      rcases hbad with hx | hx | hx | hx | hx | hx | hx | hx <;> linarith
    rw [visit_seq, if_neg hno1, if_neg hno2]
  · norm_num [visit_seq]

/-- C10 witness: the quadruple `[255, 0, 0, 255]` is range-reduced by
division by 255. -/
theorem visit_seq_ranges_witness :
    visit_seq 255 0 0 255 =
      .ok (.Seq (255 / 255) (0 / 255) (0 / 255) (255 / 255)) :=
  (visit_seq_ranges 255 0 0 255).2.1 (by norm_num) (by norm_num)

end MapEngine

